import Mathlib

/-!
Shallow embedding of the mcbootflash host-side bootloader driver
(`src/mcbootflash/protocol.py` and `src/mcbootflash/connection.py`).

Packets are translated field by field from the dataclass layouts
(format strings `=BH2I`, `+B`, `+2H2x H2x 2H 12x`, `+2I`, `+H`,
little-endian, no alignment).  The engine (`Bootloader`) is translated
as explicit state passing over a `World` holding the transport's inbox
bytes, an ordered log of transport writes and progress-callback
invocations, and the serial read timeout.  Python exceptions become an
explicit `BootError` sum; fallible operations return `Except`.
-/

namespace McBootflash

/-! ## Little-endian byte helpers (struct.pack / struct.unpack, "=" layout) -/

def u16le (v : Nat) : List Nat := [v % 256, v / 256 % 256]

def u32le (v : Nat) : List Nat :=
  [v % 256, v / 256 % 256, v / 65536 % 256, v / 16777216 % 256]

def byteAt (bs : List Nat) (i : Nat) : Nat := bs.getD i 0

def u16At (bs : List Nat) (i : Nat) : Nat :=
  byteAt bs i + 256 * byteAt bs (i + 1)

def u32At (bs : List Nat) (i : Nat) : Nat :=
  byteAt bs i + 256 * byteAt bs (i + 1) + 65536 * byteAt bs (i + 2)
    + 16777216 * byteAt bs (i + 3)

/-- The 11-byte header shared by all packets: `=BH2I`
(command u8, data_length u16, unlock_sequence u32, address u32). -/
def encodeHeader (c dl us a : Nat) : List Nat :=
  [c % 256] ++ u16le dl ++ u32le us ++ u32le a

/-! ## Errors

Python exceptions observable from `connection.py`:
the four device-reported `BootloaderError` subclasses, generic
`BootloaderError(msg)` raises, `struct.error` from `unpack`,
`KeyError` from the `_BOOTLOADER_EXCEPTIONS` dict lookup, and
`ValueError` from tuple unpacking. -/

inductive BootError where
  | unsupportedCommand
  | badAddress
  | badLength
  | verifyFail
  | bootloaderError (msg : String)
  | structError
  | keyError (key : Nat)
  | valueError (msg : String)
  | assertionError
deriving DecidableEq, Repr

instance {ε α : Type} [DecidableEq ε] [DecidableEq α] : DecidableEq (Except ε α) :=
  fun x y =>
    match x, y with
    | .ok a, .ok b =>
        if h : a = b then .isTrue (by rw [h]) else .isFalse (by simp [h])
    | .error a, .error b =>
        if h : a = b then .isTrue (by rw [h]) else .isFalse (by simp [h])
    | .ok _, .error _ => .isFalse (by simp)
    | .error _, .ok _ => .isFalse (by simp)

/-! ## Packet types (`protocol.py`) -/

/-- `Packet` / `CommandPacket`: format `=BH2I`, 11 bytes.
Fields are plain naturals, as the dataclass stores whatever ints it is
given and `struct.unpack` produces ints. -/
structure CommandPacket where
  command : Nat
  data_length : Nat := 0
  unlock_sequence : Nat := 0
  address : Nat := 0
deriving DecidableEq, Repr

def CommandPacket.toBytes (p : CommandPacket) : List Nat :=
  encodeHeader p.command p.data_length p.unlock_sequence p.address

def CommandPacket.ofBytes (bs : List Nat) : Except BootError CommandPacket :=
  if bs.length = 11 then
    .ok ⟨byteAt bs 0, u16At bs 1, u32At bs 3, u32At bs 7⟩
  else .error .structError

/-- `ResponsePacket`: format `=BH2IB`, 12 bytes (header + success u8). -/
structure ResponsePacket where
  command : Nat
  data_length : Nat := 0
  unlock_sequence : Nat := 0
  address : Nat := 0
  success : Nat := 0
deriving DecidableEq, Repr

def ResponsePacket.toBytes (p : ResponsePacket) : List Nat :=
  encodeHeader p.command p.data_length p.unlock_sequence p.address
    ++ [p.success % 256]

def ResponsePacket.ofBytes (bs : List Nat) : Except BootError ResponsePacket :=
  if bs.length = 12 then
    .ok ⟨byteAt bs 0, u16At bs 1, u32At bs 3, u32At bs 7, byteAt bs 11⟩
  else .error .structError

/-- `VersionResponsePacket`: format `=BH2I2H2xH2x2H12x`, 37 bytes.
No success field; pad bytes encode as zero and are ignored on decode. -/
structure VersionResponsePacket where
  command : Nat
  data_length : Nat := 0
  unlock_sequence : Nat := 0
  address : Nat := 0
  version : Nat := 0
  max_packet_length : Nat := 0
  device_id : Nat := 0
  erase_size : Nat := 0
  write_size : Nat := 0
deriving DecidableEq, Repr

def VersionResponsePacket.toBytes (p : VersionResponsePacket) : List Nat :=
  encodeHeader p.command p.data_length p.unlock_sequence p.address
    ++ u16le p.version ++ u16le p.max_packet_length ++ [0, 0]
    ++ u16le p.device_id ++ [0, 0] ++ u16le p.erase_size ++ u16le p.write_size
    ++ List.replicate 12 0

def VersionResponsePacket.ofBytes (bs : List Nat) :
    Except BootError VersionResponsePacket :=
  if bs.length = 37 then
    .ok ⟨byteAt bs 0, u16At bs 1, u32At bs 3, u32At bs 7,
         u16At bs 11, u16At bs 13, u16At bs 17, u16At bs 21, u16At bs 23⟩
  else .error .structError

/-- `MemoryRangePacket`: ResponsePacket + `2I`, 20 bytes. -/
structure MemoryRangePacket where
  command : Nat
  data_length : Nat := 0
  unlock_sequence : Nat := 0
  address : Nat := 0
  success : Nat := 0
  program_start : Nat := 0
  program_end : Nat := 0
deriving DecidableEq, Repr

def MemoryRangePacket.toBytes (p : MemoryRangePacket) : List Nat :=
  encodeHeader p.command p.data_length p.unlock_sequence p.address
    ++ [p.success % 256] ++ u32le p.program_start ++ u32le p.program_end

def MemoryRangePacket.ofBytes (bs : List Nat) :
    Except BootError MemoryRangePacket :=
  if bs.length = 20 then
    .ok ⟨byteAt bs 0, u16At bs 1, u32At bs 3, u32At bs 7, byteAt bs 11,
         u32At bs 12, u32At bs 16⟩
  else .error .structError

/-- `ChecksumPacket`: ResponsePacket + `H`, 14 bytes. -/
structure ChecksumPacket where
  command : Nat
  data_length : Nat := 0
  unlock_sequence : Nat := 0
  address : Nat := 0
  success : Nat := 0
  checksum : Nat := 0
deriving DecidableEq, Repr

def ChecksumPacket.toBytes (p : ChecksumPacket) : List Nat :=
  encodeHeader p.command p.data_length p.unlock_sequence p.address
    ++ [p.success % 256] ++ u16le p.checksum

def ChecksumPacket.ofBytes (bs : List Nat) : Except BootError ChecksumPacket :=
  if bs.length = 14 then
    .ok ⟨byteAt bs 0, u16At bs 1, u32At bs 3, u32At bs 7, byteAt bs 11,
         u16At bs 12⟩
  else .error .structError

/-! In-range predicates: every field within its declared bit width. -/

def CommandPacket.inRange (p : CommandPacket) : Prop :=
  p.command < 256 ∧ p.data_length < 65536 ∧ p.unlock_sequence < 4294967296
    ∧ p.address < 4294967296

instance : DecidablePred CommandPacket.inRange := fun _ =>
  inferInstanceAs (Decidable (_ ∧ _ ∧ _ ∧ _))

def ResponsePacket.inRange (p : ResponsePacket) : Prop :=
  p.command < 256 ∧ p.data_length < 65536 ∧ p.unlock_sequence < 4294967296
    ∧ p.address < 4294967296 ∧ p.success < 256

instance : DecidablePred ResponsePacket.inRange := fun _ =>
  inferInstanceAs (Decidable (_ ∧ _ ∧ _ ∧ _ ∧ _))

def VersionResponsePacket.inRange (p : VersionResponsePacket) : Prop :=
  p.command < 256 ∧ p.data_length < 65536 ∧ p.unlock_sequence < 4294967296
    ∧ p.address < 4294967296 ∧ p.version < 65536 ∧ p.max_packet_length < 65536
    ∧ p.device_id < 65536 ∧ p.erase_size < 65536 ∧ p.write_size < 65536

instance : DecidablePred VersionResponsePacket.inRange := fun _ =>
  inferInstanceAs (Decidable (_ ∧ _ ∧ _ ∧ _ ∧ _ ∧ _ ∧ _ ∧ _ ∧ _))

def MemoryRangePacket.inRange (p : MemoryRangePacket) : Prop :=
  p.command < 256 ∧ p.data_length < 65536 ∧ p.unlock_sequence < 4294967296
    ∧ p.address < 4294967296 ∧ p.success < 256
    ∧ p.program_start < 4294967296 ∧ p.program_end < 4294967296

instance : DecidablePred MemoryRangePacket.inRange := fun _ =>
  inferInstanceAs (Decidable (_ ∧ _ ∧ _ ∧ _ ∧ _ ∧ _ ∧ _))

def ChecksumPacket.inRange (p : ChecksumPacket) : Prop :=
  p.command < 256 ∧ p.data_length < 65536 ∧ p.unlock_sequence < 4294967296
    ∧ p.address < 4294967296 ∧ p.success < 256 ∧ p.checksum < 65536

instance : DecidablePred ChecksumPacket.inRange := fun _ =>
  inferInstanceAs (Decidable (_ ∧ _ ∧ _ ∧ _ ∧ _ ∧ _))

/-! ## Command codes (`BootCommand` IntEnum) -/

inductive BootCommand where
  | READ_VERSION
  | READ_FLASH
  | WRITE_FLASH
  | ERASE_FLASH
  | CALC_CHECKSUM
  | RESET_DEVICE
  | SELF_VERIFY
  | GET_MEMORY_ADDRESS_RANGE
deriving DecidableEq, Repr

def BootCommand.val : BootCommand → Nat
  | .READ_VERSION => 0x00
  | .READ_FLASH => 0x01
  | .WRITE_FLASH => 0x02
  | .ERASE_FLASH => 0x03
  | .CALC_CHECKSUM => 0x08
  | .RESET_DEVICE => 0x09
  | .SELF_VERIFY => 0x0A
  | .GET_MEMORY_ADDRESS_RANGE => 0x0B

/-- Response code values (`BootResponse` IntEnum). -/
def SUCCESS : Nat := 0x01
def UNSUPPORTED_COMMAND : Nat := 0xFF
def BAD_ADDRESS : Nat := 0xFE
def BAD_LENGTH : Nat := 0xFD
def VERIFY_FAIL : Nat := 0xFC

/-- A `Command` as the engine constructs it: the command field is always
an enum member at construction sites in `connection.py`. -/
structure Command where
  command : BootCommand
  data_length : Nat := 0
  unlock_sequence : Nat := 0
  address : Nat := 0
deriving DecidableEq, Repr

/-- `bytes(command)`: serialize via the shared `=BH2I` layout. -/
def Command.toBytes (c : Command) : List Nat :=
  encodeHeader c.command.val c.data_length c.unlock_sequence c.address

/-- The decoded response, tagged by which dataclass `from_serial` used
(`_RESPONSE_TYPE_MAP`). -/
inductive RespVariant where
  | version (v : VersionResponsePacket)
  | plain (r : ResponsePacket)
  | checksumR (c : ChecksumPacket)
  | memRange (m : MemoryRangePacket)
deriving DecidableEq, Repr

def RespVariant.commandField : RespVariant → Nat
  | .version v => v.command
  | .plain r => r.command
  | .checksumR c => c.command
  | .memRange m => m.command

/-- `_RESPONSE_TYPE_MAP[code].get_size()`: how many bytes `from_serial`
reads for the response to each command. -/
def responseSize : BootCommand → Nat
  | .READ_VERSION => 37
  | .CALC_CHECKSUM => 14
  | .GET_MEMORY_ADDRESS_RANGE => 20
  | _ => 12

/-- `_RESPONSE_TYPE_MAP[code].from_bytes(data)`. -/
def decodeFor (cc : BootCommand) (bs : List Nat) : Except BootError RespVariant :=
  match cc with
  | .READ_VERSION => (VersionResponsePacket.ofBytes bs).map .version
  | .CALC_CHECKSUM => (ChecksumPacket.ofBytes bs).map .checksumR
  | .GET_MEMORY_ADDRESS_RANGE => (MemoryRangePacket.ofBytes bs).map .memRange
  | _ => (ResponsePacket.ofBytes bs).map .plain

/-! ## Transport state

`World` carries the serial transport: the bytes the device will deliver
(`inbox`), an ordered log of externally observable events (each
`interface.write` call and each `progress_callback` invocation), and the
mutable read timeout (`None` or a value). -/

inductive TxEv where
  | tx (bs : List Nat)
  | cb (written total : Nat)
deriving DecidableEq, Repr

structure World where
  inbox : List Nat
  log : List TxEv := []
  timeout : Option Nat := none
deriving DecidableEq, Repr

/-- `interface.read(n)`: returns up to `n` bytes (fewer on timeout). -/
def World.read (w : World) (n : Nat) : List Nat × World :=
  (w.inbox.take n, { w with inbox := w.inbox.drop n })

/-- `interface.write(bs)`. -/
def World.write (w : World) (bs : List Nat) : World :=
  { w with log := w.log ++ [.tx bs] }

/-! ## `Bootloader` session state and the send/receive primitive -/

/-- Session state captured at connect time.  `memory_range` is the Python
`range(program_start, program_end)`. -/
structure Bootloader where
  max_packet_length : Nat
  erase_size : Nat
  write_size : Nat
  program_start : Nat
  program_end : Nat
deriving DecidableEq, Repr

def FLASH_UNLOCK_KEY : Nat := 0x00AA0055

/-- `Command.get_size()` = `struct.calcsize("=BH2I")` = 11. -/
def commandSize : Nat := 11

namespace Bootloader

/-- `_BOOTLOADER_EXCEPTIONS[success]`, raised when `success != SUCCESS`:
the four mapped codes raise their typed error; any other key raises
`KeyError` from the dict lookup. -/
def successException (s : Nat) : BootError :=
  if s = UNSUPPORTED_COMMAND then .unsupportedCommand
  else if s = BAD_ADDRESS then .badAddress
  else if s = BAD_LENGTH then .badLength
  else if s = VERIFY_FAIL then .verifyFail
  else .keyError s

/-- `_verify_good_response`. -/
def verifyGoodResponse (command_packet : Command) (response_packet : RespVariant) :
    Except BootError Unit :=
  if response_packet.commandField ≠ command_packet.command.val then
    .error (.bootloaderError "Command code mismatch")
  else
    match response_packet with
    | .version _ => .ok ()
    | .plain r =>
        if r.success ≠ SUCCESS then .error (successException r.success) else .ok ()
    | .checksumR c =>
        if c.success ≠ SUCCESS then .error (successException c.success) else .ok ()
    | .memRange m =>
        if m.success ≠ SUCCESS then .error (successException m.success) else .ok ()

/-- `_send_and_receive`: write `bytes(command) + data`, read the expected
response size, decode via the response-type map, verify. -/
def sendAndReceive (w : World) (command : Command) (data : List Nat := []) :
    World × Except BootError RespVariant :=
  let w := w.write (command.toBytes ++ data)
  let (bs, w) := w.read (responseSize command.command)
  match decodeFor command.command bs with
  | .error e => (w, .error e)
  | .ok r =>
      match verifyGoodResponse command r with
      | .error e => (w, .error e)
      | .ok _ => (w, .ok r)

/-- `_self_verify`. -/
def selfVerify (w : World) : World × Except BootError Unit :=
  match sendAndReceive w { command := .SELF_VERIFY } with
  | (w, .error e) => (w, .error e)
  | (w, .ok _) => (w, .ok ())

/-- `_detect_program`: a `VerifyFail` from the probe means "no program";
other failures propagate. -/
def detectProgram (w : World) : World × Except BootError Bool :=
  match selfVerify w with
  | (w, .ok _) => (w, .ok true)
  | (w, .error .verifyFail) => (w, .ok false)
  | (w, .error e) => (w, .error e)

/-- `_erase_flash(start_address, end_address)`.  The timeout is scaled by
10 before the exchange and set back only on the success path: the Python
body has no try/finally, so an exception skips the restore line. -/
def eraseFlashLow (bl : Bootloader) (w : World) (start_address end_address : Nat) :
    World × Except BootError Unit :=
  let normal_timeout := w.timeout
  let w := match w.timeout with
    | none => w
    | some t => { w with timeout := some (t * 10) }
  match sendAndReceive w
      { command := .ERASE_FLASH,
        data_length := (end_address - start_address) / bl.erase_size,
        unlock_sequence := FLASH_UNLOCK_KEY,
        address := start_address } with
  | (w, .error e) => (w, .error e)
  | (w, .ok _) => ({ w with timeout := normal_timeout }, .ok ())

/-- Elements of the Python `range(a, b)` (step 1). -/
def pyRange (a b : Nat) : List Nat := List.range' a (b - a)

/-- The erase branch of `erase_flash` (lines after the program-detection
check): `_erase_flash(start, end)` followed, when `verify`, by the
re-detection and the `EraseVerificationFailed` raise. -/
def eraseAndVerify (bl : Bootloader) (w : World) (start stop : Nat) (verify : Bool) :
    World × Except BootError Unit :=
  match eraseFlashLow bl w start stop with
  | (w, .error e) => (w, .error e)
  | (w, .ok _) =>
      if verify then
        match detectProgram w with
        | (w, .error e) => (w, .error e)
        | (w, .ok true) =>
            (w, .error (.bootloaderError "Existing application could not be erased"))
        | (w, .ok false) => (w, .ok ())
      else (w, .ok ())

/-- `erase_flash(erase_range, force, verify)`.  `erase_range` models the
optional `range` argument as its endpoints.  An *empty* range is falsy in
Python, so `erase_range if erase_range else self._memory_range` falls back
to the full memory range; then `start, *_, end = ...` unpacks the first
and *last elements*, raising `ValueError` on fewer than two elements. -/
def eraseFlash (bl : Bootloader) (w : World) (erase_range : Option (Nat × Nat) := none)
    (force : Bool := false) (verify : Bool := true) : World × Except BootError Unit :=
  let elems := match erase_range with
    | some (a, b) => if a < b then pyRange a b else pyRange bl.program_start bl.program_end
    | none => pyRange bl.program_start bl.program_end
  match elems with
  | [] => (w, .error (.valueError "not enough values to unpack"))
  | [_] => (w, .error (.valueError "not enough values to unpack"))
  | a :: b :: rest =>
      let start := a
      let stop := (b :: rest).getLastD b
      if force then eraseAndVerify bl w start stop verify
      else
        match detectProgram w with
        | (w, .error e) => (w, .error e)
        | (w, .ok false) => (w, .ok ())
        | (w, .ok true) => eraseAndVerify bl w start stop verify

end Bootloader

/-! ## Firmware segments (the IntelHex collaborator)

A `Seg` is one maximal contiguous run of addressed bytes: minimum
address, the bytes in address order, and the declared padding byte.
`sliceAddr` is IntelHex slicing by address range `[a, b)`;
`bytes` doubles as `tobinstr()` and `bytes.length` as `len(...)`. -/

structure Seg where
  minaddr : Nat
  bytes : List Nat
  padding : Nat := 255
deriving DecidableEq, Repr

def Seg.sliceAddr (s : Seg) (a b : Nat) : Seg :=
  let lo := max a s.minaddr
  let hi := min b (s.minaddr + s.bytes.length)
  ⟨lo, (s.bytes.drop (lo - s.minaddr)).take (hi - lo), s.padding⟩

/-- Elements of Python `range(start, stop, step)` for positive `step`. -/
def pyRangeStep (start stop step : Nat) : List Nat :=
  List.range' start ((stop - start + step - 1) / step) step

/-- An image: maximal contiguous segments in address order.  Slicing an
image by `[a, b)` slices every segment and keeps the non-empty ones. -/
def imageSlice (img : List Seg) (a b : Nat) : List Seg :=
  (img.map (·.sliceAddr a b)).filter (fun s => !s.bytes.isEmpty)

namespace Bootloader

/-- `_chunk(hexdata, size)`: slices at `range(minaddr(), maxaddr(), size)`
— note `stop` is the *inclusive* max address, as in the source. -/
def chunk (hexdata : Seg) (size : Nat) : List Seg :=
  let start := hexdata.minaddr
  let stop := hexdata.minaddr + hexdata.bytes.length - 1
  (pyRangeStep start stop size).map (fun i => hexdata.sliceAddr i (i + size))

/-- `_write_flash(data, align)`: pad with the segment's padding byte to a
multiple of `align`, send WRITE_FLASH at the halved (word) address. -/
def writeFlash (w : World) (data : Seg) (align : Nat) : World × Except BootError Unit :=
  let padding := List.replicate ((align - data.bytes.length % align) % align) data.padding
  match sendAndReceive w
      { command := .WRITE_FLASH,
        data_length := data.bytes.length + padding.length,
        unlock_sequence := FLASH_UNLOCK_KEY,
        address := data.minaddr / 2 }
      (data.bytes ++ padding) with
  | (w, .error e) => (w, .error e)
  | (w, .ok _) => (w, .ok ())

/-- One 4-byte little-endian group's contribution:
`v & 0xFFFF` plus `(v >> 16) & 0xFF`. -/
def groupContrib (g : List Nat) : Nat :=
  let v := g.foldr (fun b acc => b + 256 * acc) 0
  v % 65536 + v / 65536 % 256

/-- `_get_local_checksum(data)`: iterate addresses from `minaddr()` to
`minaddr() + len(data)` in steps of 4, slice each window, accumulate. -/
def getLocalChecksum (data : Seg) : Nat :=
  let start := data.minaddr
  let stop := start + data.bytes.length
  ((pyRangeStep start stop 4).foldl
      (fun acc i => acc + groupContrib (data.sliceAddr i (i + 4)).bytes) 0) % 65536

/-- Modelled from the spec: the local checksum algorithm as §4.6 words it
— split the byte sequence into consecutive 4-byte little-endian groups
(final group shorter), add each group's lower 16 bits and its bits 16–23
to a running sum, and reduce mod 65536 at the end. -/
def specChecksumAccum : List Nat → Nat
  | [] => 0
  | b :: rest => groupContrib (b :: rest.take 3) + specChecksumAccum (rest.drop 3)
termination_by l => l.length
decreasing_by simp; omega

def specLocalChecksum (bytes : List Nat) : Nat := specChecksumAccum bytes % 65536

/-- `_get_remote_checksum(address, length)`. -/
def getRemoteChecksum (w : World) (address length : Nat) : World × Except BootError Nat :=
  match sendAndReceive w
      { command := .CALC_CHECKSUM, data_length := length, address := address } with
  | (w, .error e) => (w, .error e)
  | (w, .ok (.checksumR c)) => (w, .ok c.checksum)
  | (w, .ok _) => (w, .error .assertionError)

/-- `_checksum(hexdata)`: compare the local checksum with the onboard one
computed from word address `minaddr() >> 1` over `len(hexdata)` bytes. -/
def checksumCmp (w : World) (hexdata : Seg) : World × Except BootError Unit :=
  let checksum1 := getLocalChecksum hexdata
  match getRemoteChecksum w (hexdata.minaddr / 2) hexdata.bytes.length with
  | (w, .error e) => (w, .error e)
  | (w, .ok checksum2) =>
      if checksum1 ≠ checksum2 then
        (w, .error (.bootloaderError "Checksum mismatch while writing"))
      else (w, .ok ())

/-- The chunk size computed in `flash()`:
`max_packet_length - Command.get_size()`, rounded down to a multiple of
`write_size`. -/
def chunkSize (bl : Bootloader) : Nat :=
  let c := bl.max_packet_length - commandSize
  c - c % bl.write_size

/-- The body of the inner `for chunk in chunks` loop of `flash()`:
write, advance the written counter, checksum, then (if a callback was
provided) report progress.  Returns the updated written count. -/
def flashChunk (bl : Bootloader) (w : World) (c : Seg) (written total : Nat)
    (hasCallback : Bool) : World × Except BootError Nat :=
  match writeFlash w c bl.write_size with
  | (w, .error e) => (w, .error e)
  | (w, .ok _) =>
      let written := written + c.bytes.length
      match checksumCmp w c with
      | (w, .error e) => (w, .error e)
      | (w, .ok _) =>
          let w := if hasCallback then { w with log := w.log ++ [.cb written total] } else w
          (w, .ok written)

def flashChunks (bl : Bootloader) (w : World) (cs : List Seg) (written total : Nat)
    (hasCallback : Bool) : World × Except BootError Nat :=
  match cs with
  | [] => (w, .ok written)
  | c :: rest =>
      match flashChunk bl w c written total hasCallback with
      | (w, .error e) => (w, .error e)
      | (w, .ok written) => flashChunks bl w rest written total hasCallback

def flashSegments (bl : Bootloader) (w : World) (segs : List Seg) (size written total : Nat)
    (hasCallback : Bool) : World × Except BootError Nat :=
  match segs with
  | [] => (w, .ok written)
  | s :: rest =>
      match flashChunks bl w (chunk s size) written total hasCallback with
      | (w, .error e) => (w, .error e)
      | (w, .ok written) => flashSegments bl w rest size written total hasCallback

/-- `flash(hexfile, progress_callback)`.  The image is sliced to
`[2 * memory_range[0], 2 * memory_range[-1])` — twice the first and twice
the *last element* of `range(program_start, program_end)`. -/
def flash (bl : Bootloader) (w : World) (img : List Seg) (hasCallback : Bool) :
    World × Except BootError Unit :=
  let hexdata := imageSlice img (2 * bl.program_start) (2 * (bl.program_end - 1))
  let segments := hexdata
  if segments.isEmpty then
    (w, .error (.bootloaderError
      "HEX file contains no data that fits entirely within program memory"))
  else
    match eraseFlash bl w none false true with
    | (w, .error e) => (w, .error e)
    | (w, .ok _) =>
        let size := chunkSize bl
        let total := (segments.map (·.bytes.length)).sum
        match flashSegments bl w segments size 0 total hasCallback with
        | (w, .error e) => (w, .error e)
        | (w, .ok _) => selfVerify w

/-- `_read_version()`: returns
(version, max_packet_length, device_id, erase_size, write_size). -/
def readVersion (w : World) : World × Except BootError (Nat × Nat × Nat × Nat × Nat) :=
  match sendAndReceive w { command := .READ_VERSION } with
  | (w, .error e) => (w, .error e)
  | (w, .ok (.version v)) =>
      (w, .ok (v.version, v.max_packet_length, v.device_id, v.erase_size, v.write_size))
  | (w, .ok _) => (w, .error .assertionError)

/-- `_get_memory_address_range()`. -/
def getMemoryAddressRange (w : World) : World × Except BootError (Nat × Nat) :=
  match sendAndReceive w { command := .GET_MEMORY_ADDRESS_RANGE } with
  | (w, .error e) => (w, .error e)
  | (w, .ok (.memRange m)) => (w, .ok (m.program_start, m.program_end))
  | (w, .ok _) => (w, .error .assertionError)

/-- The body of the `try` block in `__init__`. -/
def bringUp (w : World) : World × Except BootError Bootloader :=
  match readVersion w with
  | (w, .error e) => (w, .error e)
  | (w, .ok (_, max_packet_length, _, erase_size, write_size)) =>
      match getMemoryAddressRange w with
      | (w, .error e) => (w, .error e)
      | (w, .ok (program_start, program_end)) =>
          (w, .ok ⟨max_packet_length, erase_size, write_size, program_start, program_end⟩)

/-- `__init__`: `except struct.error` wraps the failure as
`BootloaderError("No response from bootloader")`; everything else
propagates unchanged. -/
def init (w : World) : World × Except BootError Bootloader :=
  match bringUp w with
  | (w, .error .structError) =>
      (w, .error (.bootloaderError "No response from bootloader"))
  | x => x

end Bootloader

/-! ## Codec round-trip lemmas -/

theorem commandPacket_ofBytes_toBytes (p : CommandPacket) (h : p.inRange) :
    CommandPacket.ofBytes p.toBytes = .ok p := by
  obtain ⟨c, dl, us, a⟩ := p
  simp only [CommandPacket.inRange] at h
  obtain ⟨h1, h2, h3, h4⟩ := h
  simp [CommandPacket.toBytes, CommandPacket.ofBytes, encodeHeader, u16le, u32le, byteAt, u16At, u32At]
  omega

theorem responsePacket_ofBytes_toBytes (p : ResponsePacket) (h : p.inRange) :
    ResponsePacket.ofBytes p.toBytes = .ok p := by
  obtain ⟨c, dl, us, a, s⟩ := p
  simp only [ResponsePacket.inRange] at h
  obtain ⟨h1, h2, h3, h4, h5⟩ := h
  simp [ResponsePacket.toBytes, ResponsePacket.ofBytes, encodeHeader, u16le, u32le, byteAt, u16At, u32At]
  omega

theorem versionResponsePacket_ofBytes_toBytes (p : VersionResponsePacket)
    (h : p.inRange) : VersionResponsePacket.ofBytes p.toBytes = .ok p := by
  obtain ⟨c, dl, us, a, v, mpl, did, es, ws⟩ := p
  simp only [VersionResponsePacket.inRange] at h
  obtain ⟨h1, h2, h3, h4, h5, h6, h7, h8, h9⟩ := h
  simp [VersionResponsePacket.toBytes, VersionResponsePacket.ofBytes, encodeHeader, u16le, u32le, byteAt, u16At, u32At]
  omega

theorem memoryRangePacket_ofBytes_toBytes (p : MemoryRangePacket) (h : p.inRange) :
    MemoryRangePacket.ofBytes p.toBytes = .ok p := by
  obtain ⟨c, dl, us, a, s, ps, pe⟩ := p
  simp only [MemoryRangePacket.inRange] at h
  obtain ⟨h1, h2, h3, h4, h5, h6, h7⟩ := h
  simp [MemoryRangePacket.toBytes, MemoryRangePacket.ofBytes, encodeHeader, u16le, u32le, byteAt, u16At, u32At]
  omega

theorem checksumPacket_ofBytes_toBytes (p : ChecksumPacket) (h : p.inRange) :
    ChecksumPacket.ofBytes p.toBytes = .ok p := by
  obtain ⟨c, dl, us, a, s, k⟩ := p
  simp only [ChecksumPacket.inRange] at h
  obtain ⟨h1, h2, h3, h4, h5, h6⟩ := h
  simp [ChecksumPacket.toBytes, ChecksumPacket.ofBytes, encodeHeader, u16le, u32le, byteAt, u16At, u32At]
  omega

/-- C7: for every packet type (Command, Response, VersionResponse,
MemoryRangeResponse, ChecksumResponse) and every assignment of field
values within their declared bit widths, decoding the encoding of the
packet yields the original packet. -/
theorem claim7_roundtrip (c : CommandPacket) (r : ResponsePacket)
    (v : VersionResponsePacket) (m : MemoryRangePacket) (k : ChecksumPacket)
    (hc : c.inRange) (hr : r.inRange) (hv : v.inRange) (hm : m.inRange)
    (hk : k.inRange) :
    CommandPacket.ofBytes c.toBytes = .ok c
    ∧ ResponsePacket.ofBytes r.toBytes = .ok r
    ∧ VersionResponsePacket.ofBytes v.toBytes = .ok v
    ∧ MemoryRangePacket.ofBytes m.toBytes = .ok m
    ∧ ChecksumPacket.ofBytes k.toBytes = .ok k :=
  ⟨commandPacket_ofBytes_toBytes c hc, responsePacket_ofBytes_toBytes r hr,
   versionResponsePacket_ofBytes_toBytes v hv,
   memoryRangePacket_ofBytes_toBytes m hm, checksumPacket_ofBytes_toBytes k hk⟩

/-- C7 witness: the round trip at concrete packets with maximal fields. -/
theorem claim7_roundtrip_witness :
    CommandPacket.ofBytes (CommandPacket.toBytes ⟨2, 65535, 11141205, 4294967295⟩)
      = .ok ⟨2, 65535, 11141205, 4294967295⟩
    ∧ ResponsePacket.ofBytes (ResponsePacket.toBytes ⟨10, 1, 2, 3, 252⟩)
      = .ok ⟨10, 1, 2, 3, 252⟩
    ∧ VersionResponsePacket.ofBytes
        (VersionResponsePacket.toBytes ⟨0, 1, 2, 3, 258, 256, 13398, 2048, 8⟩)
      = .ok ⟨0, 1, 2, 3, 258, 256, 13398, 2048, 8⟩
    ∧ MemoryRangePacket.ofBytes
        (MemoryRangePacket.toBytes ⟨11, 0, 0, 0, 1, 4096, 8192⟩)
      = .ok ⟨11, 0, 0, 0, 1, 4096, 8192⟩
    ∧ ChecksumPacket.ofBytes (ChecksumPacket.toBytes ⟨8, 0, 0, 0, 1, 65535⟩)
      = .ok ⟨8, 0, 0, 0, 1, 65535⟩ :=
  claim7_roundtrip _ _ _ _ _ (by decide) (by decide) (by decide) (by decide)
    (by decide)

/-! ## Helper lemmas about Python ranges and `erase_flash` unpacking -/

theorem range'_getLastD (n s d : Nat) : (List.range' s (n + 1)).getLastD d = s + n := by
  induction n generalizing s d with
  | zero => simp [List.range']
  | succ n ih => rw [List.range'_succ, List.getLastD_cons, ih]; omega

/-- With an explicit non-degenerate range, `force=True` and `verify=False`,
`erase_flash` is exactly `_erase_flash(range[0], range[-1])`. -/
theorem eraseFlash_force_noverify (bl : Bootloader) (w : World) (a b : Nat)
    (h : a + 2 ≤ b) :
    Bootloader.eraseFlash bl w (some (a, b)) true false
      = Bootloader.eraseFlashLow bl w a (b - 1) := by
  obtain ⟨n, hn⟩ : ∃ n, b - a = n + 2 := ⟨b - a - 2, by omega⟩
  unfold Bootloader.eraseFlash
  simp only [Bootloader.pyRange]
  rw [if_pos (show a < b by omega), hn, List.range'_succ, List.range'_succ]
  simp only [if_true]
  rw [show (a + 1) :: List.range' (a + 1 + 1) n = List.range' (a + 1) (n + 1) from
    (List.range'_succ _ _ _).symm]
  rw [range'_getLastD, show a + 1 + n = b - 1 from by omega]
  unfold Bootloader.eraseAndVerify
  rcases hE : Bootloader.eraseFlashLow bl w a (b - 1) with ⟨w', r⟩
  cases r <;> simp

/-! ## C4: response validation and error classification -/

/-- C4 counterexample: a response echoing the sent command code but with
`success = UNDEFINED` (0x00) does not raise the same condition as an
echoed-command mismatch (the `ProtocolMismatch` condition,
`BootloaderError("Command code mismatch")`): it raises the `KeyError`
escaping the `_BOOTLOADER_EXCEPTIONS` dict lookup. -/
theorem claim4_counterexample :
    Bootloader.verifyGoodResponse ⟨.SELF_VERIFY, 0, 0, 0⟩ (.plain ⟨0x0A, 0, 0, 0, 0⟩)
      = .error (.keyError 0)
    ∧ BootError.keyError 0 ≠ .bootloaderError "Command code mismatch"
    ∧ BootError.keyError 0 ∉
        [BootError.unsupportedCommand, .badAddress, .badLength, .verifyFail] := by
  decide

/-- C4 (amended): an echoed-command mismatch raises the command-mismatch
condition; a plain Response whose success code is one of 0xFF/0xFE/0xFD/0xFC
raises the correspondingly mapped typed error; any other non-SUCCESS code
(including UNDEFINED, 0x00) raises the unmapped-code lookup error
(`KeyError`), which is distinct from the four device-reported kinds and
from the command-mismatch condition; a non-SUCCESS code is never treated
as success. -/
theorem claim4_amended (cmd : McBootflash.Command) (rv : RespVariant)
    (p : ResponsePacket) :
    (rv.commandField ≠ cmd.command.val →
      Bootloader.verifyGoodResponse cmd rv
        = .error (.bootloaderError "Command code mismatch"))
    ∧ (p.command = cmd.command.val →
        ((p.success = 0xFF →
            Bootloader.verifyGoodResponse cmd (.plain p) = .error .unsupportedCommand)
        ∧ (p.success = 0xFE →
            Bootloader.verifyGoodResponse cmd (.plain p) = .error .badAddress)
        ∧ (p.success = 0xFD →
            Bootloader.verifyGoodResponse cmd (.plain p) = .error .badLength)
        ∧ (p.success = 0xFC →
            Bootloader.verifyGoodResponse cmd (.plain p) = .error .verifyFail)
        ∧ (p.success ≠ SUCCESS →
            Bootloader.verifyGoodResponse cmd (.plain p) ≠ .ok ())
        ∧ (p.success ≠ SUCCESS → p.success ≠ 0xFF → p.success ≠ 0xFE →
            p.success ≠ 0xFD → p.success ≠ 0xFC →
            Bootloader.verifyGoodResponse cmd (.plain p)
              = .error (.keyError p.success)
            ∧ BootError.keyError p.success ∉
                [BootError.unsupportedCommand, .badAddress, .badLength, .verifyFail]
            ∧ ∀ msg, BootError.keyError p.success ≠ .bootloaderError msg))) := by
  constructor
  · intro hne
    simp [Bootloader.verifyGoodResponse, hne]
  · intro heq
    refine ⟨?_, ?_, ?_, ?_, ?_, ?_⟩
    · intro hs
      simp [Bootloader.verifyGoodResponse, RespVariant.commandField, heq, hs,
        Bootloader.successException, SUCCESS, UNSUPPORTED_COMMAND, BAD_ADDRESS,
        BAD_LENGTH, VERIFY_FAIL]
    · intro hs
      simp [Bootloader.verifyGoodResponse, RespVariant.commandField, heq, hs,
        Bootloader.successException, SUCCESS, UNSUPPORTED_COMMAND, BAD_ADDRESS,
        BAD_LENGTH, VERIFY_FAIL]
    · intro hs
      simp [Bootloader.verifyGoodResponse, RespVariant.commandField, heq, hs,
        Bootloader.successException, SUCCESS, UNSUPPORTED_COMMAND, BAD_ADDRESS,
        BAD_LENGTH, VERIFY_FAIL]
    · intro hs
      simp [Bootloader.verifyGoodResponse, RespVariant.commandField, heq, hs,
        Bootloader.successException, SUCCESS, UNSUPPORTED_COMMAND, BAD_ADDRESS,
        BAD_LENGTH, VERIFY_FAIL]
    · intro hs
      simp only [SUCCESS] at hs
      simp [Bootloader.verifyGoodResponse, RespVariant.commandField, heq, hs,
        SUCCESS]
    · intro hs h255 h254 h253 h252
      simp only [SUCCESS] at hs
      simp [Bootloader.verifyGoodResponse, RespVariant.commandField, heq, hs,
        Bootloader.successException, SUCCESS, UNSUPPORTED_COMMAND, BAD_ADDRESS,
        BAD_LENGTH, VERIFY_FAIL, h255, h254, h253, h252]

/-- C4 witness: instantiating the amended theorem at a mismatched echo and
at `success = BAD_ADDRESS`. -/
theorem claim4_amended_witness :
    Bootloader.verifyGoodResponse ⟨.WRITE_FLASH, 2, 0, 0⟩ (.plain ⟨9, 0, 0, 0, 1⟩)
      = .error (.bootloaderError "Command code mismatch")
    ∧ Bootloader.verifyGoodResponse ⟨.WRITE_FLASH, 2, 0, 0⟩ (.plain ⟨2, 0, 0, 0, 0xFE⟩)
      = .error .badAddress :=
  ⟨(claim4_amended ⟨.WRITE_FLASH, 2, 0, 0⟩ (.plain ⟨9, 0, 0, 0, 1⟩)
      ⟨9, 0, 0, 0, 1⟩).1 (by decide),
   ((claim4_amended ⟨.WRITE_FLASH, 2, 0, 0⟩ (.plain ⟨2, 0, 0, 0, 0xFE⟩)
      ⟨2, 0, 0, 0, 0xFE⟩).2 (by decide)).2.1 (by decide)⟩

/-! ## C2: chunking drops trailing bytes -/

/-- C2 (code bug): with `max_packet_length = 15` and `write_size = 4` the
chunk size is `15 - 11 = 4`, already a multiple of 4; splitting a 5-byte
segment yields a single 4-byte chunk, so the segment's final byte is in
no chunk: `_chunk` iterates `range(minaddr, maxaddr, size)` whose stop is
the *inclusive* maximum address. -/
theorem claim2_chunk_drops_final_byte :
    Bootloader.chunkSize ⟨15, 1024, 4, 0x1000, 0x2000⟩ = 4
    ∧ Bootloader.chunk ⟨0x2000, [1, 2, 3, 4, 5], 0⟩ 4
        = [⟨0x2000, [1, 2, 3, 4], 0⟩]
    ∧ ((Bootloader.chunk ⟨0x2000, [1, 2, 3, 4, 5], 0⟩ 4).map
          (·.bytes.length)).sum = 4
    ∧ (Seg.mk 0x2000 [1, 2, 3, 4, 5] 0).bytes.length = 5 := by
  decide

/-! ## C3: erase data_length off by one page -/

/-- C3 (code bug): erasing `range(0x1000, 0x2000)` with `erase_size = 1024`
sends ERASE_FLASH with `unlock_sequence = 0x00AA0055` and
`address = 0x1000` as claimed, but `data_length = 3`, not
`(0x2000 - 0x1000) / 1024 = 4`: `start, *_, end = erase_range` binds `end`
to the range's last element `0x1FFF`, and `(0x1FFF - 0x1000) // 1024 = 3`. -/
theorem claim3_erase_data_length_off_by_one :
    (Bootloader.eraseFlash ⟨256, 1024, 8, 0x1000, 0x2000⟩
        ⟨ResponsePacket.toBytes ⟨3, 0, 0, 0, 1⟩, [], some 1⟩
        (some (0x1000, 0x2000)) true false).1.log
      = [.tx (Command.toBytes ⟨.ERASE_FLASH, 3, FLASH_UNLOCK_KEY, 0x1000⟩)]
    ∧ (0x2000 - 0x1000) / 1024 = 4
    ∧ Command.toBytes ⟨.ERASE_FLASH, 3, FLASH_UNLOCK_KEY, 0x1000⟩
        ≠ Command.toBytes ⟨.ERASE_FLASH, 4, FLASH_UNLOCK_KEY, 0x1000⟩ := by
  rw [eraseFlash_force_noverify _ _ _ _ (by norm_num)]
  decide

/-! ## C5: timeout not restored when the erase exchange fails -/

/-- C5 (code bug): with read timeout 1, a failing erase exchange (the
device sends nothing, so decoding fails) leaves the timeout at 10 —
`_erase_flash` has no try/finally, so the restore line is skipped — while
the success path does restore it. -/
theorem claim5_timeout_not_restored_on_failure :
    (Bootloader.eraseFlash ⟨256, 1024, 8, 0x1000, 0x2000⟩ ⟨[], [], some 1⟩
        (some (0x1000, 0x2000)) true false).1.timeout = some 10
    ∧ (Bootloader.eraseFlash ⟨256, 1024, 8, 0x1000, 0x2000⟩ ⟨[], [], some 1⟩
        (some (0x1000, 0x2000)) true false).2 = .error .structError
    ∧ (Bootloader.eraseFlash ⟨256, 1024, 8, 0x1000, 0x2000⟩
        ⟨ResponsePacket.toBytes ⟨3, 0, 0, 0, 1⟩, [], some 1⟩
        (some (0x1000, 0x2000)) true false).1.timeout = some 1
    ∧ (some 10 : Option Nat) ≠ some 1 := by
  rw [eraseFlash_force_noverify _ _ _ _ (by norm_num),
    eraseFlash_force_noverify _ _ _ _ (by norm_num)]
  decide

/-! ## C6: flash scope excludes the last word of program memory -/

/-- C6 (code bug): with program range `[0x1000, 0x2000)` the claimed
in-scope byte range is `[0x2000, 0x4000)`, but `flash()` slices the image
to `[2 * memory_range[0], 2 * memory_range[-1]) = [0x2000, 0x3FFE)`; an
image whose two bytes sit at `0x3FFE`–`0x3FFF` — inside the claimed range
— is treated as empty: `flash` fails with the EmptyImage condition, and no
exchange is attempted (the log is unchanged). -/
theorem claim6_scope_excludes_last_word :
    Bootloader.flash ⟨256, 1024, 8, 0x1000, 0x2000⟩ ⟨[], [], some 1⟩
        [⟨0x3FFE, [1, 2], 0⟩] false
      = (⟨[], [], some 1⟩, .error (.bootloaderError
          "HEX file contains no data that fits entirely within program memory"))
    ∧ 2 * 0x1000 ≤ 0x3FFE
    ∧ 0x3FFE + 2 ≤ 2 * 0x2000 := by
  decide

/-! ## C9: bring-up failures are wrapped -/

/-- C9: any decoding failure (`struct.error`, the failure mode of
`from_bytes` on a short or wrong-sized read, which is how transport
timeouts surface) during the bring-up exchanges is re-raised as
`BootloaderError("No response from bootloader")`, and the raw
`struct.error` never escapes `__init__`. -/
theorem claim9_bringup_failure_wrapped (w : World) :
    ((Bootloader.bringUp w).2 = .error .structError →
      (Bootloader.init w).2 = .error (.bootloaderError "No response from bootloader"))
    ∧ (Bootloader.init w).2 ≠ .error .structError := by
  rcases hB : Bootloader.bringUp w with ⟨w', r⟩
  have hI : Bootloader.init w =
      match (w', r) with
      | (w', .error .structError) =>
          (w', .error (.bootloaderError "No response from bootloader"))
      | x => x := by
    rw [← hB]; rfl
  constructor
  · intro h2
    replace h2 : r = .error .structError := h2
    rw [hI, h2]
  · rw [hI]
    rcases r with e | b
    · cases e <;> simp
    · simp

/-- C9 witness: a silent device (empty inbox) fails bring-up with a
decoding error, and `init` reports the ConnectionFailed condition. -/
theorem claim9_witness :
    (Bootloader.init ⟨[], [], none⟩).2
      = .error (.bootloaderError "No response from bootloader") :=
  (claim9_bringup_failure_wrapped ⟨[], [], none⟩).1 (by decide)

/-! ## C10: erase_flash unpacking -/

theorem decodeFor_error_eq (cc : BootCommand) (bs : List Nat) (e : BootError)
    (h : decodeFor cc bs = .error e) : e = .structError := by
  cases cc <;>
    simp only [decodeFor, VersionResponsePacket.ofBytes, ChecksumPacket.ofBytes,
      MemoryRangePacket.ofBytes, ResponsePacket.ofBytes] at h <;>
    split at h <;> simp_all [Except.map]

theorem successException_ne_valueError (s : Nat) (msg : String) :
    Bootloader.successException s ≠ .valueError msg := by
  unfold Bootloader.successException
  split_ifs <;> simp

theorem verifyGoodResponse_no_valueError (c : Command) (rv : RespVariant)
    (msg : String) :
    Bootloader.verifyGoodResponse c rv ≠ .error (.valueError msg) := by
  unfold Bootloader.verifyGoodResponse
  split
  · simp
  · split
    · simp
    · split <;> simp [successException_ne_valueError]
    · split <;> simp [successException_ne_valueError]
    · split <;> simp [successException_ne_valueError]

theorem sendAndReceive_no_valueError (w : World) (c : Command) (d : List Nat)
    (msg : String) :
    (Bootloader.sendAndReceive w c d).2 ≠ .error (.valueError msg) := by
  unfold Bootloader.sendAndReceive World.read World.write
  dsimp only
  split
  · next e he =>
    have := decodeFor_error_eq _ _ _ he
    simp [this]
  · next r hr =>
    split
    · next e he =>
      intro hc
      replace hc : Except.error e = Except.error (BootError.valueError msg) := hc
      simp only [Except.error.injEq] at hc
      rw [hc] at he
      exact verifyGoodResponse_no_valueError c r msg he
    · simp

theorem selfVerify_no_valueError (w : World) (msg : String) :
    (Bootloader.selfVerify w).2 ≠ .error (.valueError msg) := by
  have h := sendAndReceive_no_valueError w { command := .SELF_VERIFY } [] msg
  unfold Bootloader.selfVerify
  rcases hSR : Bootloader.sendAndReceive w { command := .SELF_VERIFY } with ⟨w2, r⟩
  rw [hSR] at h
  rcases r with e | u
  · simpa using h
  · simp

theorem detectProgram_no_valueError (w : World) (msg : String) :
    (Bootloader.detectProgram w).2 ≠ .error (.valueError msg) := by
  have h := selfVerify_no_valueError w msg
  unfold Bootloader.detectProgram
  rcases hSV : Bootloader.selfVerify w with ⟨w2, r⟩
  rw [hSV] at h
  rcases r with e | u
  · cases e <;> simp_all
  · simp

theorem eraseFlashLow_no_valueError (bl : Bootloader) (w : World) (a b : Nat)
    (msg : String) :
    (Bootloader.eraseFlashLow bl w a b).2 ≠ .error (.valueError msg) := by
  have key : ∀ (v : World) (nt : Option Nat),
      (match Bootloader.sendAndReceive v
          { command := .ERASE_FLASH, data_length := (b - a) / bl.erase_size,
            unlock_sequence := FLASH_UNLOCK_KEY, address := a } with
        | (w1, Except.error e) => (w1, Except.error e)
        | (w1, Except.ok _) => ({ w1 with timeout := nt }, Except.ok ())).2
        ≠ Except.error (BootError.valueError msg) := by
    intro v nt
    have h := sendAndReceive_no_valueError v
      { command := .ERASE_FLASH, data_length := (b - a) / bl.erase_size,
        unlock_sequence := FLASH_UNLOCK_KEY, address := a } [] msg
    rcases hSR : Bootloader.sendAndReceive v
      { command := .ERASE_FLASH, data_length := (b - a) / bl.erase_size,
        unlock_sequence := FLASH_UNLOCK_KEY, address := a } with ⟨w3, r⟩
    rw [hSR] at h
    rcases r with e | u
    · simpa using h
    · simp
  unfold Bootloader.eraseFlashLow
  rcases ht : w.timeout with _ | t
  · dsimp only
    exact key w none
  · dsimp only
    exact key { w with timeout := some (t * 10) } (some t)

theorem eraseAndVerify_no_valueError (bl : Bootloader) (w : World)
    (start stop : Nat) (verify : Bool) (msg : String) :
    (Bootloader.eraseAndVerify bl w start stop verify).2
      ≠ .error (.valueError msg) := by
  unfold Bootloader.eraseAndVerify
  have hE2 := eraseFlashLow_no_valueError bl w start stop msg
  rcases hE : Bootloader.eraseFlashLow bl w start stop with ⟨w3, r⟩
  rw [hE] at hE2
  rcases r with e | u
  · simpa using hE2
  · dsimp only
    cases verify
    · simp
    · simp only [if_true]
      have hD2 := detectProgram_no_valueError w3 msg
      rcases hD : Bootloader.detectProgram w3 with ⟨w4, rd⟩
      rw [hD] at hD2
      rcases rd with e | bb
      · simpa using hD2
      · cases bb <;> simp

/-- C10 counterexample: an *empty* explicit `erase_range` (here
`range(5, 5)`) does not fail to unpack: an empty range is falsy in
Python, so `erase_range if erase_range else self._memory_range` silently
substitutes the full device memory range, and (with `force=True`) an
ERASE_FLASH exchange *is* issued and succeeds. -/
theorem claim10_counterexample :
    Bootloader.eraseFlash ⟨256, 1024, 8, 0x1000, 0x1004⟩
        ⟨ResponsePacket.toBytes ⟨3, 0, 0, 0, 1⟩, [], some 1⟩ (some (5, 5)) true false
      = (⟨[], [.tx (Command.toBytes ⟨.ERASE_FLASH, 0, FLASH_UNLOCK_KEY, 0x1000⟩)],
          some 1⟩, .ok ())
    ∧ (Except.ok () : Except BootError Unit)
        ≠ .error (.valueError "not enough values to unpack") := by
  decide

/-- C10 (amended): a *single-element* explicit erase_range fails with the
unpacking `ValueError` before anything is written to the transport (the
world is returned unchanged), and an explicit erase_range with at least
two elements never produces an unpacking `ValueError`; an empty
erase_range instead falls back to the full device memory range. -/
theorem claim10_amended :
    (∀ (bl : Bootloader) (w : World) (a : Nat) (force verify : Bool),
      Bootloader.eraseFlash bl w (some (a, a + 1)) force verify
        = (w, .error (.valueError "not enough values to unpack")))
    ∧ (∀ (bl : Bootloader) (w : World) (a b : Nat) (force verify : Bool)
        (msg : String), a + 2 ≤ b →
        (Bootloader.eraseFlash bl w (some (a, b)) force verify).2
          ≠ .error (.valueError msg)) := by
  constructor
  · intro bl w a force verify
    unfold Bootloader.eraseFlash
    simp only [Bootloader.pyRange]
    rw [if_pos (show a < a + 1 by omega),
      show a + 1 - a = 1 from by omega, List.range'_one]
  · intro bl w a b force verify msg h
    obtain ⟨n, hn⟩ : ∃ n, b - a = n + 2 := ⟨b - a - 2, by omega⟩
    unfold Bootloader.eraseFlash
    simp only [Bootloader.pyRange]
    rw [if_pos (show a < b by omega), hn, List.range'_succ, List.range'_succ]
    dsimp only
    cases force
    · rw [if_neg (by simp)]
      have hD2 := detectProgram_no_valueError w msg
      rcases hD : Bootloader.detectProgram w with ⟨w2, rd⟩
      rw [hD] at hD2
      rcases rd with e | bb
      · simpa using hD2
      · cases bb
        · simp
        · exact eraseAndVerify_no_valueError bl w2 a _ verify msg
    · rw [if_pos rfl]
      exact eraseAndVerify_no_valueError bl w a _ verify msg

/-- C10 witness: a single-element range fails to unpack with the world
untouched; a two-element range does not raise the unpacking error. -/
theorem claim10_amended_witness :
    Bootloader.eraseFlash ⟨256, 1024, 8, 0x1000, 0x1004⟩ ⟨[], [], none⟩
        (some (7, 8)) true true
      = (⟨[], [], none⟩, .error (.valueError "not enough values to unpack"))
    ∧ (Bootloader.eraseFlash ⟨256, 1024, 8, 0x1000, 0x1004⟩ ⟨[], [], none⟩
        (some (7, 9)) true false).2
      ≠ .error (.valueError "not enough values to unpack") :=
  ⟨claim10_amended.1 ⟨256, 1024, 8, 0x1000, 0x1004⟩ ⟨[], [], none⟩ 7 true true,
   claim10_amended.2 ⟨256, 1024, 8, 0x1000, 0x1004⟩ ⟨[], [], none⟩ 7 9 true false
     "not enough values to unpack" (by omega)⟩

/-! ## A successful exchange against a scripted inbox -/

theorem responsePacket_length_toBytes (p : ResponsePacket) : p.toBytes.length = 12 := by
  simp [ResponsePacket.toBytes, encodeHeader, u16le, u32le]

theorem checksumPacket_length_toBytes (p : ChecksumPacket) : p.toBytes.length = 14 := by
  simp [ChecksumPacket.toBytes, encodeHeader, u16le, u32le]

/-- When the inbox starts with a well-formed response of the expected size
that decodes to `rv` and passes validation, `_send_and_receive` writes
`bytes(command) + data`, consumes exactly the response bytes, and returns
`rv`. -/
theorem sendAndReceive_concrete (w : World) (c : Command) (d resp rest : List Nat)
    (rv : RespVariant)
    (hlen : resp.length = responseSize c.command)
    (hinbox : w.inbox = resp ++ rest)
    (hdec : decodeFor c.command resp = .ok rv)
    (hver : Bootloader.verifyGoodResponse c rv = .ok ()) :
    Bootloader.sendAndReceive w c d
      = (⟨rest, w.log ++ [.tx (c.toBytes ++ d)], w.timeout⟩, .ok rv) := by
  unfold Bootloader.sendAndReceive World.read World.write
  dsimp only
  rw [hinbox, List.take_left' hlen, List.drop_left' hlen, hdec]
  dsimp only
  rw [hver]

/-! ## C1: the local checksum and the checksum exchange -/

theorem getLocalChecksum_lt (s : Seg) : Bootloader.getLocalChecksum s < 65536 := by
  unfold Bootloader.getLocalChecksum
  exact Nat.mod_lt _ (by norm_num)

theorem specChecksumAccum_nil : Bootloader.specChecksumAccum [] = 0 := by
  rw [Bootloader.specChecksumAccum]

theorem specChecksumAccum_cons (b : Nat) (rest : List Nat) :
    Bootloader.specChecksumAccum (b :: rest)
      = Bootloader.groupContrib (b :: rest.take 3)
        + Bootloader.specChecksumAccum (rest.drop 3) := by
  rw [Bootloader.specChecksumAccum]

/-- Slicing a 4-byte window out of a segment at an in-range address is
`drop` then `take 4` on its byte list. -/
theorem sliceAddr_window (s : Seg) (i : Nat) (h : s.minaddr ≤ i) :
    (s.sliceAddr i (i + 4)).bytes = (s.bytes.drop (i - s.minaddr)).take 4 := by
  unfold Seg.sliceAddr
  dsimp only
  rw [Nat.max_eq_left h, List.take_eq_take]
  simp [List.length_drop]
  omega

theorem foldl_add_init (g : Nat → Nat) (c : Nat) (l : List Nat) :
    l.foldl (fun acc i => acc + g i) c = c + l.foldl (fun acc i => acc + g i) 0 := by
  induction l generalizing c with
  | nil => simp
  | cons x t ih =>
    simp only [List.foldl_cons]
    rw [ih (c + g x), ih (0 + g x)]
    omega

/-- The address-indexed 4-byte accumulation over a byte list equals the
positional 4-byte-group accumulation. -/
theorem accum_drop (q : Nat) : ∀ (l : List Nat) (m : Nat), q = (l.length + 3) / 4 →
    (pyRangeStep m (m + l.length) 4).foldl
        (fun acc i => acc + Bootloader.groupContrib ((l.drop (i - m)).take 4)) 0
      = Bootloader.specChecksumAccum l := by
  induction q with
  | zero =>
    intro l m hq
    have hl : l = [] := List.length_eq_zero.mp (by omega)
    subst hl
    simp [pyRangeStep, specChecksumAccum_nil]
  | succ q ih =>
    intro l m hq
    rcases l with _ | ⟨b, rest⟩
    · simp at hq
    · simp only [List.length_cons] at hq
      unfold pyRangeStep
      rw [show (m + (b :: rest).length - m + 4 - 1) / 4 = q + 1 from by
        simp only [List.length_cons]; omega]
      rw [List.range'_succ, List.foldl_cons, foldl_add_init]
      have hbody : ∀ (acc i : Nat), i ∈ List.range' (m + 4) q 4 →
          acc + Bootloader.groupContrib (((b :: rest).drop (i - m)).take 4)
            = acc + Bootloader.groupContrib
                ((((b :: rest).drop 4).drop (i - (m + 4))).take 4) := by
        intro acc i hi
        rw [List.mem_range'] at hi
        obtain ⟨k, hk, rfl⟩ := hi
        rw [List.drop_drop, show 4 + (m + 4 + 4 * k - (m + 4)) = m + 4 + 4 * k - m from
          by omega]
      rw [List.foldl_ext _ _ 0 hbody]
      have htail := ih ((b :: rest).drop 4) (m + 4)
        (by simp only [List.length_drop, List.length_cons]; omega)
      unfold pyRangeStep at htail
      rw [show (m + 4 + ((b :: rest).drop 4).length - (m + 4) + 4 - 1) / 4 = q from by
        simp only [List.length_drop, List.length_cons]; omega] at htail
      rw [htail, specChecksumAccum_cons]
      simp

/-- `_get_local_checksum` computes exactly the spec's algorithm: sum over
consecutive 4-byte little-endian groups of (low 16 bits) + (bits 16–23),
reduced mod 65536. -/
theorem getLocalChecksum_eq_spec (s : Seg) :
    Bootloader.getLocalChecksum s = Bootloader.specLocalChecksum s.bytes := by
  unfold Bootloader.getLocalChecksum Bootloader.specLocalChecksum
  dsimp only
  congr 1
  have hbody : ∀ (acc i : Nat),
      i ∈ pyRangeStep s.minaddr (s.minaddr + s.bytes.length) 4 →
      acc + Bootloader.groupContrib (s.sliceAddr i (i + 4)).bytes
        = acc + Bootloader.groupContrib
            ((s.bytes.drop (i - s.minaddr)).take 4) := by
    intro acc i hi
    unfold pyRangeStep at hi
    rw [List.mem_range'] at hi
    obtain ⟨k, hk, rfl⟩ := hi
    rw [sliceAddr_window s _ (by omega)]
  rw [List.foldl_ext _ _ 0 hbody]
  exact accum_drop ((s.bytes.length + 3) / 4) s.bytes s.minaddr rfl

/-- C1: the local checksum processes the segment's bytes in 4-byte
little-endian groups, adding each group's lower 16 bits plus its bits
16–23 to a running sum, mod 65536; `_checksum` requests the onboard
checksum via CALC_CHECKSUM at word address `minaddr >> 1` with length the
segment's byte length; it raises the ChecksumMismatch condition iff the
local and onboard values differ. -/
theorem claim1_checksum (seg : Seg) (w : World) (r : Nat) (rest : List Nat)
    (hr : r < 65536)
    (hinbox : w.inbox = ChecksumPacket.toBytes ⟨8, 0, 0, 0, 1, r⟩ ++ rest) :
    Bootloader.getLocalChecksum seg = Bootloader.specLocalChecksum seg.bytes
    ∧ (Bootloader.checksumCmp w seg).1.log
        = w.log ++ [.tx (Command.toBytes
            ⟨.CALC_CHECKSUM, seg.bytes.length, 0, seg.minaddr / 2⟩)]
    ∧ ((Bootloader.checksumCmp w seg).2
          = .error (.bootloaderError "Checksum mismatch while writing")
        ↔ Bootloader.getLocalChecksum seg ≠ r)
    ∧ ((Bootloader.checksumCmp w seg).2 = .ok ()
        ↔ Bootloader.getLocalChecksum seg = r) := by
  have hSR := sendAndReceive_concrete w
    ⟨.CALC_CHECKSUM, seg.bytes.length, 0, seg.minaddr / 2⟩ []
    (ChecksumPacket.toBytes ⟨8, 0, 0, 0, 1, r⟩) rest
    (.checksumR ⟨8, 0, 0, 0, 1, r⟩)
    (by rw [checksumPacket_length_toBytes]; rfl)
    hinbox
    (by
      simp only [decodeFor]
      rw [checksumPacket_ofBytes_toBytes ⟨8, 0, 0, 0, 1, r⟩
        ⟨by norm_num, by norm_num, by norm_num, by norm_num, by norm_num, hr⟩]
      rfl)
    (by simp [Bootloader.verifyGoodResponse, RespVariant.commandField,
      BootCommand.val, SUCCESS])
  refine ⟨getLocalChecksum_eq_spec seg, ?_, ?_, ?_⟩ <;>
    (unfold Bootloader.checksumCmp Bootloader.getRemoteChecksum
     rw [hSR]
     dsimp only
     by_cases hEq : Bootloader.getLocalChecksum seg = r)
  · rw [if_neg (by simpa using hEq)]
    simp
  · rw [if_pos (by simpa using hEq)]
    simp
  · rw [if_neg (by simpa using hEq)]
    simp [hEq]
  · rw [if_pos (by simpa using hEq)]
    simp [hEq]
  · rw [if_neg (by simpa using hEq)]
    simp [hEq]
  · rw [if_pos (by simpa using hEq)]
    simp [hEq]

/-- C1 witness: a 4-byte segment at `0x2000` whose LE group is
`0x04030201`: local checksum `0x0201 + 0x03 = 516`; with the device
reporting 516 the checksum comparison passes. -/
theorem claim1_checksum_witness :
    (Bootloader.checksumCmp
        ⟨ChecksumPacket.toBytes ⟨8, 0, 0, 0, 1, 516⟩ ++ [], [], none⟩
        ⟨0x2000, [1, 2, 3, 4], 0⟩).2 = .ok () :=
  ((claim1_checksum ⟨0x2000, [1, 2, 3, 4], 0⟩ _ 516 [] (by norm_num)
    rfl).2.2.2).mpr (by decide)

/-! ## C8: per-chunk operation order -/

theorem pairwise_lt_range' (s n step : Nat) (h : 0 < step) :
    (List.range' s n step).Pairwise (· < ·) := by
  induction n generalizing s with
  | zero => simp
  | succ n ih =>
    rw [List.range'_succ]
    refine List.Pairwise.cons ?_ (ih (s + step))
    intro y hy
    rw [List.mem_range'] at hy
    obtain ⟨k, hk, rfl⟩ := hy
    omega

/-- The chunks of a segment start at `range(minaddr, maxaddr, size)`. -/
theorem chunk_minaddr_map (s : Seg) (size : Nat) :
    (Bootloader.chunk s size).map Seg.minaddr
      = pyRangeStep s.minaddr (s.minaddr + s.bytes.length - 1) size := by
  unfold Bootloader.chunk
  dsimp only
  rw [List.map_map]
  conv_rhs => rw [← List.map_id (pyRangeStep s.minaddr
    (s.minaddr + s.bytes.length - 1) size)]
  apply List.map_congr_left
  intro i hi
  unfold pyRangeStep at hi
  rw [List.mem_range'] at hi
  obtain ⟨k, hk, rfl⟩ := hi
  simp [Seg.sliceAddr, Function.comp]

/-- C8 counterexample: a complete `flash()` run over one 4-byte segment.
The device first reports VerifyFail to the detection probe (no program,
erase skipped), then SUCCESS to WRITE_FLASH, CALC_CHECKSUM (516) and
SELF_VERIFY.  The observed event order is write-exchange,
checksum-exchange, *then* progress callback — not callback before
checksum as claimed. -/
theorem claim8_counterexample :
    (Bootloader.flash ⟨15, 1024, 4, 0x1000, 0x1003⟩
        ⟨ResponsePacket.toBytes ⟨0x0A, 0, 0, 0, 0xFC⟩
          ++ ResponsePacket.toBytes ⟨2, 0, 0, 0, 1⟩
          ++ ChecksumPacket.toBytes ⟨8, 0, 0, 0, 1, 516⟩
          ++ ResponsePacket.toBytes ⟨0x0A, 0, 0, 0, 1⟩, [], none⟩
        [⟨0x2000, [1, 2, 3, 4], 0xFF⟩] true).1.log
      = [.tx (Command.toBytes ⟨.SELF_VERIFY, 0, 0, 0⟩),
         .tx (Command.toBytes ⟨.WRITE_FLASH, 4, FLASH_UNLOCK_KEY, 0x1000⟩
           ++ [1, 2, 3, 4]),
         .tx (Command.toBytes ⟨.CALC_CHECKSUM, 4, 0, 0x1000⟩),
         .cb 4 4,
         .tx (Command.toBytes ⟨.SELF_VERIFY, 0, 0, 0⟩)]
    ∧ (Bootloader.flash ⟨15, 1024, 4, 0x1000, 0x1003⟩
        ⟨ResponsePacket.toBytes ⟨0x0A, 0, 0, 0, 0xFC⟩
          ++ ResponsePacket.toBytes ⟨2, 0, 0, 0, 1⟩
          ++ ChecksumPacket.toBytes ⟨8, 0, 0, 0, 1, 516⟩
          ++ ResponsePacket.toBytes ⟨0x0A, 0, 0, 0, 1⟩, [], none⟩
        [⟨0x2000, [1, 2, 3, 4], 0xFF⟩] true).1.log
      ≠ [.tx (Command.toBytes ⟨.SELF_VERIFY, 0, 0, 0⟩),
         .tx (Command.toBytes ⟨.WRITE_FLASH, 4, FLASH_UNLOCK_KEY, 0x1000⟩
           ++ [1, 2, 3, 4]),
         .cb 4 4,
         .tx (Command.toBytes ⟨.CALC_CHECKSUM, 4, 0, 0x1000⟩),
         .tx (Command.toBytes ⟨.SELF_VERIFY, 0, 0, 0⟩)] := by
  decide

/-- C8 (amended): for each chunk the loop body performs, in order, the
WRITE_FLASH exchange, then advances the written-byte counter, then the
chunk's CALC_CHECKSUM exchange, and only then invokes
`progress_callback(written, total)`; the write always precedes the
checksum verification of the same chunk, and the chunks of a segment are
generated in strictly increasing address order. -/
theorem claim8_amended (bl : Bootloader) (w : World) (c : Seg)
    (written total : Nat) (rest : List Nat)
    (hinbox : w.inbox = ResponsePacket.toBytes ⟨2, 0, 0, 0, 1⟩
        ++ (ChecksumPacket.toBytes
            ⟨8, 0, 0, 0, 1, Bootloader.getLocalChecksum c⟩ ++ rest)) :
    ((Bootloader.flashChunk bl w c written total true).1.log
      = w.log
        ++ [.tx (Command.toBytes ⟨.WRITE_FLASH,
              c.bytes.length + (List.replicate
                ((bl.write_size - c.bytes.length % bl.write_size)
                  % bl.write_size) c.padding).length,
              FLASH_UNLOCK_KEY, c.minaddr / 2⟩
            ++ (c.bytes ++ List.replicate
                ((bl.write_size - c.bytes.length % bl.write_size)
                  % bl.write_size) c.padding)),
          .tx (Command.toBytes
            ⟨.CALC_CHECKSUM, c.bytes.length, 0, c.minaddr / 2⟩),
          .cb (written + c.bytes.length) total]
      ∧ (Bootloader.flashChunk bl w c written total true).2
          = .ok (written + c.bytes.length))
    ∧ ∀ (s : Seg) (size : Nat), 0 < size →
        ((Bootloader.chunk s size).map Seg.minaddr).Pairwise (· < ·) := by
  constructor
  · have hW := sendAndReceive_concrete w
      ⟨.WRITE_FLASH,
        c.bytes.length + (List.replicate
          ((bl.write_size - c.bytes.length % bl.write_size) % bl.write_size)
          c.padding).length,
        FLASH_UNLOCK_KEY, c.minaddr / 2⟩
      (c.bytes ++ List.replicate
        ((bl.write_size - c.bytes.length % bl.write_size) % bl.write_size)
        c.padding)
      (ResponsePacket.toBytes ⟨2, 0, 0, 0, 1⟩)
      (ChecksumPacket.toBytes ⟨8, 0, 0, 0, 1, Bootloader.getLocalChecksum c⟩
        ++ rest)
      (.plain ⟨2, 0, 0, 0, 1⟩)
      (by rw [responsePacket_length_toBytes]; rfl)
      hinbox
      rfl
      (by simp [Bootloader.verifyGoodResponse, RespVariant.commandField,
        BootCommand.val, SUCCESS])
    have hC := sendAndReceive_concrete
      ⟨ChecksumPacket.toBytes ⟨8, 0, 0, 0, 1, Bootloader.getLocalChecksum c⟩
          ++ rest,
        w.log ++ [.tx (Command.toBytes
          ⟨.WRITE_FLASH,
            c.bytes.length + (List.replicate
              ((bl.write_size - c.bytes.length % bl.write_size)
                % bl.write_size) c.padding).length,
            FLASH_UNLOCK_KEY, c.minaddr / 2⟩
          ++ (c.bytes ++ List.replicate
              ((bl.write_size - c.bytes.length % bl.write_size)
                % bl.write_size) c.padding))],
        w.timeout⟩
      ⟨.CALC_CHECKSUM, c.bytes.length, 0, c.minaddr / 2⟩ []
      (ChecksumPacket.toBytes ⟨8, 0, 0, 0, 1, Bootloader.getLocalChecksum c⟩)
      rest
      (.checksumR ⟨8, 0, 0, 0, 1, Bootloader.getLocalChecksum c⟩)
      (by rw [checksumPacket_length_toBytes]; rfl)
      rfl
      (by
        simp only [decodeFor]
        rw [checksumPacket_ofBytes_toBytes
          ⟨8, 0, 0, 0, 1, Bootloader.getLocalChecksum c⟩
          ⟨by norm_num, by norm_num, by norm_num, by norm_num, by norm_num,
            getLocalChecksum_lt c⟩]
        rfl)
      (by simp [Bootloader.verifyGoodResponse, RespVariant.commandField,
        BootCommand.val, SUCCESS])
    unfold Bootloader.flashChunk Bootloader.writeFlash
    dsimp only
    rw [hW]
    dsimp only
    unfold Bootloader.checksumCmp Bootloader.getRemoteChecksum
    dsimp only
    rw [hC]
    dsimp only
    rw [if_neg (by simp)]
    dsimp only
    constructor
    · simp [List.append_assoc]
    · rfl
  · intro s size hsz
    rw [chunk_minaddr_map]
    unfold pyRangeStep
    exact pairwise_lt_range' _ _ _ hsz

/-- C8 witness: the amended per-chunk ordering at a concrete 4-byte chunk
with `write_size = 4` (no padding). -/
theorem claim8_amended_witness :
    (Bootloader.flashChunk ⟨15, 1024, 4, 0x1000, 0x1003⟩
        ⟨ResponsePacket.toBytes ⟨2, 0, 0, 0, 1⟩
          ++ (ChecksumPacket.toBytes ⟨8, 0, 0, 0, 1, 516⟩ ++ []), [], none⟩
        ⟨0x2000, [1, 2, 3, 4], 0xFF⟩ 0 4 true).2 = .ok (0 + 4) :=
  ((claim8_amended ⟨15, 1024, 4, 0x1000, 0x1003⟩
      ⟨ResponsePacket.toBytes ⟨2, 0, 0, 0, 1⟩
        ++ (ChecksumPacket.toBytes ⟨8, 0, 0, 0, 1, 516⟩ ++ []), [], none⟩
      ⟨0x2000, [1, 2, 3, 4], 0xFF⟩ 0 4 []
      (by decide)).1).2

end McBootflash
